import Mathlib

/-!
Verification development for the wakesprint Wake-on-LAN application.

The development shallowly embeds the two cores of the repository:

* the wake dispatcher (`src/wol-service.ts`, class `WakeOnLanService`):
  MAC validation, magic-packet transmission and per-device wake results;
* the device registries: the flat-file `DeviceManager`
  (`src/device-manager.ts`, namespace `FlatFile` below) and the
  SQLite-backed `DeviceManager` (`src/backend/src/device-manager.ts`,
  namespace `Backend` below).

Effectful TypeScript is modelled by explicit state passing: the SQLite
table is a `List Device` of rows in insertion order, fallible operations
return `Except String` carrying the thrown `Error` message, and the
outcome of a UDP send (external nondeterminism) is an oracle argument
`Option String` (`none` = the callback got no error, `some e` = the
callback got an error with message `e`).
-/

/-- Embedding of the `Device` interface of `src/types.ts`. -/
structure Device where
  name : String
  mac : String
  ip : Option String
  broadcast : Option String
deriving Repr, DecidableEq

/-- Embedding of the `WakeResult` interface of `src/types.ts`. -/
structure WakeResult where
  success : Bool
  device : String
  mac : String
  message : String
deriving Repr, DecidableEq

/-- Embedding of TypeScript `Partial<Device>` as used by `updateDevice`.
The outer `Option` on each field records whether the field is present on
the update object (`undefined` in JS = `none` here); for `ip` and
`broadcast` the inner `Option` records an explicit `null` value, which
the SQLite manager stores as SQL `NULL`. -/
structure DeviceUpdate where
  name : Option String
  mac : Option String
  ip : Option (Option String)
  broadcast : Option (Option String)
deriving Repr, DecidableEq

/-- Embedding of `Object.assign(device, updates)` (flat-file manager) and
of the field list built by the SQLite manager's `updateDevice`: every
field present on the update object replaces the stored field, every
absent field is left untouched. -/
def applyUpdate (u : DeviceUpdate) (d : Device) : Device :=
  Device.mk (u.name.getD d.name) (u.mac.getD d.mac) (u.ip.getD d.ip) (u.broadcast.getD d.broadcast)

/-- Model of JavaScript `String.prototype.toLowerCase` (and of SQLite's
`COLLATE NOCASE` case folding) as the list of lower-cased characters of
the string. Comparing `nameKey`s embeds the source's
`a.toLowerCase() === b.toLowerCase()` comparisons. -/
def nameKey (s : String) : List Char :=
  s.data.map Char.toLower

namespace WakeOnLanService

/-- Character class `[0-9A-Fa-f]` of the MAC regex in `isValidMac`. -/
def isHexChar (c : Char) : Bool :=
  (decide ('0' ≤ c) && decide (c ≤ '9')) ||
  (decide ('A' ≤ c) && decide (c ≤ 'F')) ||
  (decide ('a' ≤ c) && decide (c ≤ 'f'))

/-- Character class `[:-]` of the MAC regex in `isValidMac`. -/
def isSepChar (c : Char) : Bool :=
  c = ':' || c = '-'

/-- Matcher for `([0-9A-Fa-f]{2}[:-]){n}([0-9A-Fa-f]{2})` anchored on the
whole character list: `n` separated groups followed by a final group. -/
def macGroups : Nat → List Char → Bool
  | 0, [a, b] => isHexChar a && isHexChar b
  | n + 1, a :: b :: s :: rest => isHexChar a && isHexChar b && isSepChar s && macGroups n rest
  | _, _ => false

/-- Embedding of `WakeOnLanService.isValidMac`, which tests the anchored
regex `([0-9A-Fa-f]{2}[:-]){5}([0-9A-Fa-f]{2})` against the string. -/
def isValidMac (mac : String) : Bool :=
  macGroups 5 mac.data

/-- Value of a hexadecimal digit character. -/
def hexDigitVal (c : Char) : Option Nat :=
  if decide ('0' ≤ c) && decide (c ≤ '9') then some (c.toNat - '0'.toNat)
  else if decide ('A' ≤ c) && decide (c ≤ 'F') then some (c.toNat - 'A'.toNat + 10)
  else if decide ('a' ≤ c) && decide (c ≤ 'f') then some (c.toNat - 'a'.toNat + 10)
  else none

/-- Modelled from the spec: the octets of a MAC address "given as a
colon- or hyphen-separated string" — two hex digits per octet, one
separator character between octets. (The parsing itself happens inside
the external `wake_on_lan` npm library, which is not part of this
repository's sources.) -/
def parseOctets : List Char → Option (List Nat)
  | [a, b] => do
    let hi ← hexDigitVal a
    let lo ← hexDigitVal b
    pure [16 * hi + lo]
  | a :: b :: s :: rest =>
    if isSepChar s then do
      let hi ← hexDigitVal a
      let lo ← hexDigitVal b
      let tail ← parseOctets rest
      pure ((16 * hi + lo) :: tail)
    else none
  | _ => none

/-- Modelled from the spec: a MAC string denotes a 6-octet hardware
address. -/
def parseMacOctets (mac : String) : Option (List Nat) :=
  match parseOctets mac.data with
  | some l => if l.length = 6 then some l else none
  | none => none

/-- Modelled from the spec: "the payload is 102 bytes — 6 bytes of `0xFF`
followed by the 6-byte target MAC address repeated 16 times". -/
def magicPacket (octets : List Nat) : List Nat :=
  List.replicate 6 255 ++ (List.replicate 16 octets).flatten

/-- One UDP datagram as handed to the network stack: payload bytes,
destination port and destination address. -/
structure Datagram where
  payload : List Nat
  port : Nat
  address : String
deriving Repr, DecidableEq

/-- Modelled from the spec: the external `wol.wake` call "sent as a
single UDP datagram to port 9, destination address = the device's
configured broadcast address if present, else a default broadcast
address (255.255.255.255)". -/
def wolWake (mac : String) (address : Option String) : Option Datagram :=
  (parseMacOctets mac).map fun octets =>
    Datagram.mk (magicPacket octets) 9 (address.getD "255.255.255.255")

/-- Transmission effect of `WakeOnLanService.wake`: the source passes
`{ address: broadcast }` to `wol.wake` exactly when `broadcast` is
truthy (so an empty string falls back to the default address). -/
def wakeDatagram (mac : String) (broadcast : Option String) : Option Datagram :=
  match broadcast with
  | some b => if b = "" then wolWake mac none else wolWake mac (some b)
  | none => wolWake mac none

/-- Result value of `WakeOnLanService.wake`: the callback resolves the
promise in both branches, so the call always produces a `WakeResult` and
never rejects. `outcome` is the error the `wol.wake` callback received,
if any. -/
def wake (mac : String) (broadcast : Option String) (outcome : Option String) : WakeResult :=
  match broadcast, outcome with
  | _, some err => WakeResult.mk false "Unknown" mac ("Failed to wake device: " ++ err)
  | _, none => WakeResult.mk true "Unknown" mac "Magic packet sent successfully"

/-- Result value of `WakeOnLanService.wakeDevice`: as `wake`, but the
result and the messages carry the device record's name and MAC. -/
def wakeDevice (d : Device) (outcome : Option String) : WakeResult :=
  match outcome with
  | some err => WakeResult.mk false d.name d.mac ("Failed to wake " ++ d.name ++ ": " ++ err)
  | none => WakeResult.mk true d.name d.mac ("Magic packet sent to " ++ d.name ++ " successfully")

/-- Embedding of `WakeOnLanService.wakeMultiple`:
`devices.map(device => this.wakeDevice(device))` then `Promise.all`.
Each device's send has its own outcome, indexed by the device's position
in the input list; `Promise.all` preserves that input order. -/
def wakeMultiple (devices : List Device) (outcome : Nat → Option String) : List WakeResult :=
  devices.enum.map fun p => wakeDevice p.2 (outcome p.1)

end WakeOnLanService

/-- Invariant of the device registry: at most one record per
case-insensitive name. -/
abbrev NamesUnique (l : List Device) : Prop :=
  l.Pairwise fun a b => nameKey a.name ≠ nameKey b.name

/-- Row predicate of the source's case-insensitive name matches:
`d.name.toLowerCase() === name.toLowerCase()` in the flat-file manager,
`WHERE name = ? COLLATE NOCASE` in the SQLite manager. -/
def rowMatches (name : String) (d : Device) : Bool :=
  nameKey d.name = nameKey name

namespace Backend

/-- State of the SQLite `devices` table, rows in insertion order. The
table is declared `name TEXT NOT NULL UNIQUE COLLATE NOCASE`. -/
abbrev Db := List Device

/-- Embedding of `getDevice`:
`SELECT name, mac, ip, broadcast FROM devices WHERE name = ? COLLATE NOCASE`,
returning the first matching row. (`normalizeDevice` only converts SQL
`NULL` to `undefined`, which the `Option String` fields already model.) -/
def dbGetDevice (db : Db) (name : String) : Option Device :=
  db.find? (rowMatches name)

/-- Error message SQLite produces when the `UNIQUE COLLATE NOCASE`
constraint on `devices.name` is violated. -/
def constraintError : String :=
  "UNIQUE constraint failed: devices.name"

/-- Embedding of `INSERT INTO devices (name, mac, ip, broadcast) VALUES
(?, ?, ?, ?)`: appends a row, unless the name collides case-insensitively
with an existing row, in which case the table's unique constraint makes
the statement throw and leaves the table unchanged. -/
def dbInsert (db : Db) (d : Device) : Except String Db :=
  if db.any (rowMatches d.name) then .error constraintError
  else .ok (db ++ [d])

/-- Embedding of `DeviceManager.addDevice` (SQLite): look the name up
case-insensitively, throw `already exists` when found, otherwise insert. -/
def addDevice (db : Db) (d : Device) : Except String Db :=
  match dbGetDevice db d.name with
  | some _ => .error ("Device '" ++ d.name ++ "' already exists")
  | none => dbInsert db d

/-- Embedding of `DeviceManager.removeDevice` (SQLite):
`DELETE FROM devices WHERE name = ? COLLATE NOCASE`, reporting whether
any row was deleted. -/
def removeDevice (db : Db) (name : String) : Bool × Db :=
  ((db.filter (rowMatches name)).length > 0, db.filter fun d => !rowMatches name d)

/-- Embedding of `UPDATE devices SET <fields> WHERE name = ? COLLATE
NOCASE`: rewrites every matching row with the supplied fields and
reports the number of changed rows; the table's unique constraint makes
the statement throw (leaving the table unchanged) when the rewrite would
produce two rows with the same case-insensitive name. -/
def dbUpdate (db : Db) (name : String) (u : DeviceUpdate) : Except String (Nat × Db) :=
  if NamesUnique (db.map fun d => if rowMatches name d then applyUpdate u d else d) then
    .ok ((db.filter (rowMatches name)).length,
      db.map fun d => if rowMatches name d then applyUpdate u d else d)
  else .error constraintError

/-- Tail of `DeviceManager.updateDevice` (SQLite) after its duplicate
check: if no field is present on the update object the source returns
`true` without touching the database, otherwise it runs the `UPDATE`
statement and returns whether it changed any row. -/
def updateFields (db : Db) (name : String) (u : DeviceUpdate) : Except String (Bool × Db) :=
  if u.name.isSome || u.mac.isSome || u.ip.isSome || u.broadcast.isSome then
    match dbUpdate db name u with
    | .ok (changes, db') => .ok (changes > 0, db')
    | .error e => .error e
  else .ok (true, db)

/-- Embedding of `DeviceManager.updateDevice` (SQLite): return `false`
when no record matches `name`; throw `already exists` when the update
object carries a truthy new name that differs from `name` by exact
string comparison (`updates.name && updates.name !== name`) and some
record matches the new name case-insensitively; otherwise apply the
supplied fields. -/
def updateDevice (db : Db) (name : String) (u : DeviceUpdate) : Except String (Bool × Db) :=
  match dbGetDevice db name with
  | none => .ok (false, db)
  | some _ =>
    match u.name with
    | some newName =>
      if newName = "" then updateFields db name u
      else if newName = name then updateFields db name u
      else
        match dbGetDevice db newName with
        | some _ => .error ("Device '" ++ newName ++ "' already exists")
        | none => updateFields db name u
    | none => updateFields db name u

/-- Boolean comparator embedding `ORDER BY name COLLATE NOCASE`:
lexicographic comparison of the case-folded names. -/
def charListLe : List Char → List Char → Bool
  | [], _ => true
  | _ :: _, [] => false
  | a :: as, b :: bs => if a = b then charListLe as bs else decide (a < b)

/-- Row order produced by `ORDER BY name COLLATE NOCASE`. -/
def nameLe (a b : Device) : Bool :=
  charListLe (nameKey a.name) (nameKey b.name)

/-- Embedding of `DeviceManager.getDevices` (SQLite):
`SELECT name, mac, ip, broadcast FROM devices ORDER BY name COLLATE NOCASE`.
The query is read-only; it is modelled as a pure function of the table. -/
def getDevices (db : Db) : List Device :=
  db.mergeSort nameLe

/-- The default record inserted by `migrateLegacyConfig` when there is
nothing to migrate. -/
def exampleDevice : Device :=
  Device.mk "example-device" "00:11:22:33:44:55" (some "192.168.1.100") (some "192.168.1.255")

/-- The `for` loop of `migrateLegacyConfig`: insert the legacy records
one at a time. When an insert throws, the rows already inserted stay in
the table (there is no enclosing transaction); the error value carries
that partial table. -/
def insertAll (db : Db) : List Device → Except Db Db
  | [] => .ok db
  | d :: rest =>
    match dbInsert db d with
    | .ok db' => insertAll db' rest
    | .error _ => .error db

/-- Embedding of `DeviceManager.migrateLegacyConfig`. `legacy` describes
the `devices.json` file next to the database: `none` = the file does not
exist, `some none` = it exists but `JSON.parse` (or an insert inside the
`try`) would fail before any record is parsed, `some (some l)` = it
parses as the record list `l`. When the table already has rows the
method returns at once. Otherwise a parse failure or a mid-loop insert
failure is caught, a warning is logged, and control falls through to the
insertion of `exampleDevice`; an error thrown by that final insert
escapes to the caller, again leaving the rows inserted so far. -/
def migrateLegacyConfig (db : Db) (legacy : Option (Option (List Device))) :
    Except (String × Db) Db :=
  if db.length > 0 then .ok db
  else
    match legacy with
    | some (some devs) =>
      match insertAll db devs with
      | .ok db' => .ok db'
      | .error leftoverDb =>
        match dbInsert leftoverDb exampleDevice with
        | .ok db' => .ok db'
        | .error e => .error (e, leftoverDb)
    | some none =>
      match dbInsert db exampleDevice with
      | .ok db' => .ok db'
      | .error e => .error (e, db)
    | none =>
      match dbInsert db exampleDevice with
      | .ok db' => .ok db'
      | .error e => .error (e, db)

/-- The `DeviceManager` object of the SQLite backend: its `db` field is
`null` until `loadDevices` has completed. -/
structure DeviceManager where
  db : Option Db

/-- Embedding of `DeviceManager.loadDevices` (SQLite): a second call on
an initialized manager returns immediately; otherwise the database file
is opened (its current rows are `stored`), the table is created if
missing, and `migrateLegacyConfig` runs. -/
def loadDevices (m : DeviceManager) (stored : Db) (legacy : Option (Option (List Device))) :
    Except (String × Db) DeviceManager :=
  match m.db with
  | some _ => .ok m
  | none =>
    match migrateLegacyConfig stored legacy with
    | .ok db => .ok (DeviceManager.mk (some db))
    | .error e => .error e

/-- Error message of `ensureDb` for operations invoked before
`loadDevices`. -/
def initError : String :=
  "Device manager not initialized. Call loadDevices() first."

/-- Embedding of `DeviceManager.ensureDb`. -/
def ensureDb (m : DeviceManager) : Except String Db :=
  match m.db with
  | none => .error initError
  | some db => .ok db

/-- Public `getDevices` as seen by callers of the manager object. -/
def mgrGetDevices (m : DeviceManager) : Except String (List Device) :=
  (ensureDb m).map getDevices

/-- Public `getDevice` as seen by callers of the manager object. -/
def mgrGetDevice (m : DeviceManager) (name : String) : Except String (Option Device) :=
  (ensureDb m).map fun db => dbGetDevice db name

/-- Public `addDevice` as seen by callers of the manager object. -/
def mgrAddDevice (m : DeviceManager) (d : Device) : Except String Db :=
  match ensureDb m with
  | .ok db => addDevice db d
  | .error e => .error e

/-- Public `removeDevice` as seen by callers of the manager object. -/
def mgrRemoveDevice (m : DeviceManager) (name : String) : Except String (Bool × Db) :=
  (ensureDb m).map fun db => removeDevice db name

/-- Public `updateDevice` as seen by callers of the manager object. -/
def mgrUpdateDevice (m : DeviceManager) (name : String) (u : DeviceUpdate) :
    Except String (Bool × Db) :=
  match ensureDb m with
  | .ok db => updateDevice db name u
  | .error e => .error e

/-- One registry mutation, for stating invariants over operation
sequences. -/
inductive RegOp
  | add (d : Device)
  | remove (name : String)
  | update (name : String) (u : DeviceUpdate)
  | migrate (legacy : Option (Option (List Device)))

/-- Table state after one operation: a thrown error leaves the table as
it was at the moment of the throw (for `migrate`, the rows inserted
before the failing statement remain). -/
def applyOp (db : Db) : RegOp → Db
  | .add d =>
    match addDevice db d with
    | .ok db' => db'
    | .error _ => db
  | .remove name => (removeDevice db name).2
  | .update name u =>
    match updateDevice db name u with
    | .ok (_, db') => db'
    | .error _ => db
  | .migrate legacy =>
    match migrateLegacyConfig db legacy with
    | .ok db' => db'
    | .error (_, db') => db'

end Backend

namespace FlatFile

/-- Embedding of `DeviceManager.getDevices` (flat file): returns the
in-memory `devices` array as is, in insertion order. -/
def getDevices (devices : List Device) : List Device :=
  devices

/-- Embedding of `DeviceManager.getDevice` (flat file):
`devices.find(d => d.name.toLowerCase() === name.toLowerCase())`. -/
def getDevice (devices : List Device) (name : String) : Option Device :=
  devices.find? (rowMatches name)

/-- Embedding of `DeviceManager.addDevice` (flat file): throw
`already exists` when a case-insensitive match is found, otherwise push
the record onto the array. -/
def addDevice (devices : List Device) (d : Device) : Except String (List Device) :=
  match getDevice devices d.name with
  | some _ => .error ("Device '" ++ d.name ++ "' already exists")
  | none => .ok (devices ++ [d])

/-- Array state after `addDevice`: the throw happens before the push, so
a failed add leaves the array unchanged. -/
def applyAdd (devices : List Device) (d : Device) : List Device :=
  match addDevice devices d with
  | .ok l => l
  | .error _ => devices

/-- Embedding of `DeviceManager.removeDevice` (flat file): `findIndex`
on the case-insensitive match, then `splice(index, 1)`. -/
def removeDevice (devices : List Device) (name : String) : Bool × List Device :=
  match devices.findIdx? (rowMatches name) with
  | none => (false, devices)
  | some i => (true, devices.eraseIdx i)

/-- Replace the first element satisfying `p` by its image under `f`;
`none` when no element matches. This is how `getDevice` followed by a
mutation of the found record acts on the array. -/
def updateFirst (p : Device → Bool) (f : Device → Device) : List Device → Option (List Device)
  | [] => none
  | d :: rest =>
    if p d then some (f d :: rest)
    else (updateFirst p f rest).map fun l => d :: l

/-- Embedding of `DeviceManager.updateDevice` (flat file): find the
record case-insensitively, return `false` when absent, otherwise
`Object.assign(device, updates)` in place — with no duplicate-name
check of any kind. -/
def updateDevice (devices : List Device) (name : String) (u : DeviceUpdate) :
    Bool × List Device :=
  match updateFirst (rowMatches name) (applyUpdate u) devices with
  | none => (false, devices)
  | some l => (true, l)

end FlatFile

/-- Positional description of the strings matched by the `isValidMac`
regex: 17 characters, a separator (`:` or `-`, chosen independently at
each position) at positions 2, 5, 8, 11, 14 and a hex digit everywhere
else. -/
def MacShape (s : String) : Prop :=
  s.data.length = 17 ∧
  ∀ i, i < 17 →
    (if i % 3 = 2 then WakeOnLanService.isSepChar (s.data.getD i ' ')
     else WakeOnLanService.isHexChar (s.data.getD i ' ')) = true

/-- Placeholder device used as the default of `List.getD`. -/
def defaultDevice : Device :=
  Device.mk "" "" none none

/-- Placeholder result used as the default of `List.getD`. -/
def defaultResult : WakeResult :=
  WakeResult.mk false "" "" ""

/-- The seeding rule exactly as the claim states it, following the
spec's words: a present well-formed legacy list contributes its entries
and nothing else; a present malformed legacy file makes the whole
migration get skipped; only when no legacy file is present is the one
example record inserted; a non-empty store is never re-seeded. -/
def claimSeedResult (db : Backend.Db) (legacy : Option (Option (List Device))) : Backend.Db :=
  if db.length > 0 then db
  else
    match legacy with
    | some (some devs) => devs
    | some none => db
    | none => [Backend.exampleDevice]


/-- Helper: the number of octets parsed from a MAC string accepted by
`parseMacOctets` is exactly 6. -/
theorem parseMacOctets_length {mac : String} {octets : List Nat}
    (h : WakeOnLanService.parseMacOctets mac = some octets) : octets.length = 6 := by
  unfold WakeOnLanService.parseMacOctets at h
  cases e : WakeOnLanService.parseOctets mac.data with
  | none => rw [e] at h; cases h
  | some l =>
    rw [e] at h
    dsimp only at h
    split at h
    · cases h; assumption
    · cases h

/-- C1: for a 6-octet MAC given as a colon- or hyphen-separated string,
`wake(mac)` hands the network stack a single UDP datagram whose 102-byte
payload is 6 bytes of `0xFF` followed by the 6 MAC octets repeated 16
times, addressed to port 9 at 255.255.255.255 by default, or at the
supplied broadcast address. -/
theorem wake_transmits_magic_packet (mac : String) (octets : List Nat)
    (h : WakeOnLanService.parseMacOctets mac = some octets) :
    WakeOnLanService.wakeDatagram mac none =
      some (WakeOnLanService.Datagram.mk
        (List.replicate 6 255 ++ (List.replicate 16 octets).flatten) 9 "255.255.255.255") ∧
    (∀ b : String, b ≠ "" →
      WakeOnLanService.wakeDatagram mac (some b) =
        some (WakeOnLanService.Datagram.mk
          (List.replicate 6 255 ++ (List.replicate 16 octets).flatten) 9 b)) ∧
    (List.replicate 6 255 ++ (List.replicate 16 octets).flatten).length = 102 := by
  have hlen : octets.length = 6 := parseMacOctets_length h
  refine ⟨?_, ?_, ?_⟩
  · simp [WakeOnLanService.wakeDatagram, WakeOnLanService.wolWake, h,
      WakeOnLanService.magicPacket]
  · intro b hb
    simp [WakeOnLanService.wakeDatagram, hb, WakeOnLanService.wolWake, h,
      WakeOnLanService.magicPacket]
  · simp [List.length_flatten, List.map_replicate, List.sum_replicate, hlen, smul_eq_mul]

/-- Witness for `wake_transmits_magic_packet` at the spec's example MAC. -/
theorem wake_transmits_magic_packet_witness :
    WakeOnLanService.parseMacOctets "00:11:22:33:44:55" = some [0, 17, 34, 51, 68, 85] ∧
    WakeOnLanService.wakeDatagram "00:11:22:33:44:55" none =
      some (WakeOnLanService.Datagram.mk
        (List.replicate 6 255 ++ (List.replicate 16 [0, 17, 34, 51, 68, 85]).flatten)
        9 "255.255.255.255") ∧
    WakeOnLanService.wakeDatagram "00:11:22:33:44:55" (some "192.168.1.255") =
      some (WakeOnLanService.Datagram.mk
        (List.replicate 6 255 ++ (List.replicate 16 [0, 17, 34, 51, 68, 85]).flatten)
        9 "192.168.1.255") := by
  have h : WakeOnLanService.parseMacOctets "00:11:22:33:44:55" =
      some [0, 17, 34, 51, 68, 85] := by decide
  have t := wake_transmits_magic_packet "00:11:22:33:44:55" [0, 17, 34, 51, 68, 85] h
  exact ⟨h, t.1, t.2.1 "192.168.1.255" (by decide)⟩

/-- C5: `wake` and `wakeDevice` report outcomes as values: a send error
yields `success=false` with the error message embedded, a clean send
yields `success=true`; `wake` labels the result with device `Unknown`
and the MAC as given, `wakeDevice` with the record's name and MAC. The
callback resolves the promise in both branches, so neither function
rejects. -/
theorem wake_reports_failures_as_values (mac : String) (b : Option String) (err : String)
    (d : Device) :
    WakeOnLanService.wake mac b (some err) =
      WakeResult.mk false "Unknown" mac ("Failed to wake device: " ++ err) ∧
    WakeOnLanService.wake mac b none =
      WakeResult.mk true "Unknown" mac "Magic packet sent successfully" ∧
    WakeOnLanService.wakeDevice d (some err) =
      WakeResult.mk false d.name d.mac ("Failed to wake " ++ d.name ++ ": " ++ err) ∧
    WakeOnLanService.wakeDevice d none =
      WakeResult.mk true d.name d.mac ("Magic packet sent to " ++ d.name ++ " successfully") :=
  ⟨rfl, rfl, rfl, rfl⟩

/-- C4: `wakeMultiple` produces exactly one result per input device, in
input order, and the i-th result is a function of the i-th device and
its own send outcome alone — another device's failure cannot remove or
alter it. -/
theorem wakeMultiple_pointwise (devices : List Device) (outcome : Nat → Option String) :
    (WakeOnLanService.wakeMultiple devices outcome).length = devices.length ∧
    ∀ i, i < devices.length →
      (WakeOnLanService.wakeMultiple devices outcome).getD i defaultResult =
        WakeOnLanService.wakeDevice (devices.getD i defaultDevice) (outcome i) := by
  have hlen : (WakeOnLanService.wakeMultiple devices outcome).length = devices.length := by
    simp [WakeOnLanService.wakeMultiple, List.enum_length]
  refine ⟨hlen, ?_⟩
  intro i hi
  rw [List.getD_eq_getElem _ _ (by omega), List.getD_eq_getElem _ _ hi]
  simp [WakeOnLanService.wakeMultiple, List.getElem_map, List.getElem_enum]

/-- Witness for `wakeMultiple_pointwise`: three devices where the second
send fails. -/
theorem wakeMultiple_pointwise_witness :
    (1 < ([Device.mk "D1" "00:00:00:00:00:01" none none,
           Device.mk "D2" "00:00:00:00:00:02" none none,
           Device.mk "D3" "00:00:00:00:00:03" none none] : List Device).length) ∧
    (WakeOnLanService.wakeMultiple
        [Device.mk "D1" "00:00:00:00:00:01" none none,
         Device.mk "D2" "00:00:00:00:00:02" none none,
         Device.mk "D3" "00:00:00:00:00:03" none none]
        (fun i => if i = 1 then some "Network is unreachable" else none)).getD 1 defaultResult =
      WakeOnLanService.wakeDevice
        (([Device.mk "D1" "00:00:00:00:00:01" none none,
           Device.mk "D2" "00:00:00:00:00:02" none none,
           Device.mk "D3" "00:00:00:00:00:03" none none] : List Device).getD 1 defaultDevice)
        ((fun i => if i = 1 then some "Network is unreachable" else none) 1) := by
  refine ⟨by decide, ?_⟩
  exact (wakeMultiple_pointwise
    [Device.mk "D1" "00:00:00:00:00:01" none none,
     Device.mk "D2" "00:00:00:00:00:02" none none,
     Device.mk "D3" "00:00:00:00:00:03" none none]
    (fun i => if i = 1 then some "Network is unreachable" else none)).2 1 (by decide)

/-- C10: every public operation of the SQLite-backed manager invoked
before `loadDevices` has completed throws the initialization error
rather than returning an absent or `false` result. -/
theorem operations_require_initialization (name : String) (d : Device) (u : DeviceUpdate) :
    Backend.mgrGetDevices (Backend.DeviceManager.mk none) = .error Backend.initError ∧
    Backend.mgrGetDevice (Backend.DeviceManager.mk none) name = .error Backend.initError ∧
    Backend.mgrAddDevice (Backend.DeviceManager.mk none) d = .error Backend.initError ∧
    Backend.mgrRemoveDevice (Backend.DeviceManager.mk none) name = .error Backend.initError ∧
    Backend.mgrUpdateDevice (Backend.DeviceManager.mk none) name u = .error Backend.initError :=
  ⟨rfl, rfl, rfl, rfl, rfl⟩

/-- Helper: the group matcher accepts exactly the lists of length
`3*n + 2` with a separator at every position `≡ 2 (mod 3)` and a hex
digit everywhere else. -/
theorem macGroups_eq_true_iff (n : Nat) :
    ∀ l : List Char, WakeOnLanService.macGroups n l = true ↔
      (l.length = 3 * n + 2 ∧
       ∀ i, i < 3 * n + 2 →
         (if i % 3 = 2 then WakeOnLanService.isSepChar (l.getD i ' ')
          else WakeOnLanService.isHexChar (l.getD i ' ')) = true) := by
  induction n with
  | zero =>
    intro l
    match l with
    | [] =>
      rw [show WakeOnLanService.macGroups 0 ([] : List Char) = false from rfl]
      simp only [Bool.false_eq_true, false_iff, not_and]
      intro hl
      simp at hl
    | [a] =>
      rw [show WakeOnLanService.macGroups 0 [a] = false from rfl]
      simp only [Bool.false_eq_true, false_iff, not_and]
      intro hl
      simp at hl
    | [a, b] =>
      rw [show WakeOnLanService.macGroups 0 [a, b] =
        (WakeOnLanService.isHexChar a && WakeOnLanService.isHexChar b) from rfl]
      simp only [Bool.and_eq_true]
      constructor
      · rintro ⟨ha, hb⟩
        refine ⟨rfl, ?_⟩
        intro i hi
        interval_cases i
        · simpa [List.getD] using ha
        · simpa [List.getD] using hb
      · rintro ⟨-, h⟩
        have h0 := h 0 (by omega)
        have h1 := h 1 (by omega)
        simp [List.getD] at h0 h1
        exact ⟨h0, h1⟩
    | a :: b :: c :: rest =>
      rw [show WakeOnLanService.macGroups 0 (a :: b :: c :: rest) = false from rfl]
      simp only [Bool.false_eq_true, false_iff, not_and]
      intro hl
      simp at hl
  | succ n ih =>
    intro l
    match l with
    | [] =>
      rw [show WakeOnLanService.macGroups (n + 1) ([] : List Char) = false from rfl]
      simp only [Bool.false_eq_true, false_iff, not_and]
      intro hl
      simp at hl
    | [a] =>
      rw [show WakeOnLanService.macGroups (n + 1) [a] = false from rfl]
      simp only [Bool.false_eq_true, false_iff, not_and]
      intro hl
      simp at hl
    | [a, b] =>
      rw [show WakeOnLanService.macGroups (n + 1) [a, b] = false from rfl]
      simp only [Bool.false_eq_true, false_iff, not_and]
      intro hl
      simp at hl
    | a :: b :: s :: rest =>
      rw [show WakeOnLanService.macGroups (n + 1) (a :: b :: s :: rest) =
        (WakeOnLanService.isHexChar a && WakeOnLanService.isHexChar b &&
         WakeOnLanService.isSepChar s && WakeOnLanService.macGroups n rest) from rfl]
      simp only [Bool.and_eq_true, ih rest]
      constructor
      · rintro ⟨⟨⟨ha, hb⟩, hs⟩, hlen, hrest⟩
        refine ⟨by simp [List.length_cons, hlen]; omega, ?_⟩
        intro i hi
        obtain h3 | h3 := Nat.lt_or_ge i 3
        · interval_cases i
          · simpa [List.getD] using ha
          · simpa [List.getD] using hb
          · simpa [List.getD] using hs
        · obtain ⟨j, rfl⟩ : ∃ j, i = j + 3 := ⟨i - 3, by omega⟩
          have hmod : (j + 3) % 3 = j % 3 := by omega
          rw [show (a :: b :: s :: rest).getD (j + 3) ' ' = rest.getD j ' ' from rfl, hmod]
          exact hrest j (by omega)
      · rintro ⟨hlen, h⟩
        have ha := h 0 (by omega)
        have hb := h 1 (by omega)
        have hs := h 2 (by omega)
        simp [List.getD] at ha hb hs
        refine ⟨⟨⟨ha, hb⟩, hs⟩, by simp [List.length_cons] at hlen ⊢; omega, ?_⟩
        intro j hj
        have hj3 := h (j + 3) (by omega)
        have hmod : (j + 3) % 3 = j % 3 := by omega
        rw [show (a :: b :: s :: rest).getD (j + 3) ' ' = rest.getD j ' ' from rfl, hmod] at hj3
        exact hj3

/-- C2 counterexample: the regex in `isValidMac` chooses each of the
five separators independently, so the mixed-separator string that the
claim says is rejected is in fact accepted. -/
theorem isValidMac_accepts_mixed_separators :
    WakeOnLanService.isValidMac "AA:BB-CC:DD:EE:FF" = true := by decide

/-- C2 (amended): `isValidMac` accepts exactly the strings made of six
2-hex-digit groups with a separator (`:` or `-`, chosen independently at
each of the five positions) between consecutive groups; in particular it
accepts the two uniform examples and the mixed-separator example, and
rejects the too-short and non-hex examples. -/
theorem isValidMac_characterization :
    (∀ s : String, WakeOnLanService.isValidMac s = true ↔ MacShape s) ∧
    WakeOnLanService.isValidMac "AA:BB:CC:DD:EE:FF" = true ∧
    WakeOnLanService.isValidMac "aa-bb-cc-dd-ee-ff" = true ∧
    WakeOnLanService.isValidMac "AA:BB:CC:DD:EE" = false ∧
    WakeOnLanService.isValidMac "AA:BB:CC:DD:EE:GG" = false ∧
    WakeOnLanService.isValidMac "AA:BB-CC:DD:EE:FF" = true := by
  refine ⟨?_, by decide, by decide, by decide, by decide, by decide⟩
  intro s
  unfold WakeOnLanService.isValidMac MacShape
  simpa using macGroups_eq_true_iff 5 s.data

/-- Helper: a successful `INSERT` preserves the uniqueness invariant. -/
theorem dbInsert_namesUnique {db : Backend.Db} {d : Device} {db' : Backend.Db}
    (h : NamesUnique db) (hins : Backend.dbInsert db d = .ok db') : NamesUnique db' := by
  unfold Backend.dbInsert at hins
  split at hins
  · cases hins
  · rename_i hany
    cases hins
    refine List.pairwise_append.mpr ⟨h, List.pairwise_singleton _ _, ?_⟩
    intro a ha b hb
    simp only [List.mem_singleton] at hb
    subst hb
    intro heq
    exact hany (List.any_eq_true.mpr ⟨a, ha, by simp [rowMatches, heq]⟩)

/-- Helper: a successful `addDevice` preserves the uniqueness invariant. -/
theorem addDevice_namesUnique {db : Backend.Db} {d : Device} {db' : Backend.Db}
    (h : NamesUnique db) (hadd : Backend.addDevice db d = .ok db') : NamesUnique db' := by
  unfold Backend.addDevice at hadd
  split at hadd
  · cases hadd
  · exact dbInsert_namesUnique h hadd

/-- Helper: `removeDevice` preserves the uniqueness invariant. -/
theorem removeDevice_namesUnique {db : Backend.Db} (h : NamesUnique db) (name : String) :
    NamesUnique (Backend.removeDevice db name).2 :=
  List.Pairwise.sublist (List.filter_sublist _) h

/-- Helper: a successful `UPDATE` statement preserves the uniqueness
invariant (it is exactly what the table's unique constraint checks). -/
theorem dbUpdate_namesUnique {db : Backend.Db} {name : String} {u : DeviceUpdate}
    {changes : Nat} {db' : Backend.Db}
    (hup : Backend.dbUpdate db name u = .ok (changes, db')) : NamesUnique db' := by
  unfold Backend.dbUpdate at hup
  split at hup
  · cases hup
    assumption
  · cases hup

/-- Helper: a successful `updateFields` preserves the uniqueness
invariant. -/
theorem updateFields_namesUnique {db : Backend.Db} {name : String} {u : DeviceUpdate}
    {r : Bool} {db' : Backend.Db} (h : NamesUnique db)
    (hup : Backend.updateFields db name u = .ok (r, db')) : NamesUnique db' := by
  unfold Backend.updateFields at hup
  split at hup
  · split at hup
    · rename_i heq
      cases hup
      exact dbUpdate_namesUnique heq
    · cases hup
  · cases hup
    exact h

/-- Helper: a successful `updateDevice` preserves the uniqueness
invariant. -/
theorem updateDevice_namesUnique {db : Backend.Db} {name : String} {u : DeviceUpdate}
    {r : Bool} {db' : Backend.Db} (h : NamesUnique db)
    (hup : Backend.updateDevice db name u = .ok (r, db')) : NamesUnique db' := by
  unfold Backend.updateDevice at hup
  split at hup
  · cases hup
    exact h
  · split at hup
    · split at hup
      · exact updateFields_namesUnique h hup
      · split at hup
        · exact updateFields_namesUnique h hup
        · split at hup
          · cases hup
          · exact updateFields_namesUnique h hup
    · exact updateFields_namesUnique h hup

/-- Helper: the migration loop preserves the uniqueness invariant, both
on success and in the partial state left by a failing insert. -/
theorem insertAll_namesUnique :
    ∀ (l : List Device) (db : Backend.Db), NamesUnique db →
      ∀ db', (Backend.insertAll db l = .ok db' ∨ Backend.insertAll db l = .error db') →
        NamesUnique db' := by
  intro l
  induction l with
  | nil =>
    intro db h db' hcase
    rcases hcase with h1 | h1
    · cases h1
      exact h
    · cases h1
  | cons d rest ih =>
    intro db h db' hcase
    rw [show Backend.insertAll db (d :: rest) =
      (match Backend.dbInsert db d with
       | .ok db1 => Backend.insertAll db1 rest
       | .error _ => .error db) from rfl] at hcase
    cases e : Backend.dbInsert db d with
    | ok db1 =>
      rw [e] at hcase
      exact ih db1 (dbInsert_namesUnique h e) db' hcase
    | error msg =>
      rw [e] at hcase
      rcases hcase with h1 | h1
      · cases h1
      · cases h1
        exact h

/-- Helper: `migrateLegacyConfig` preserves the uniqueness invariant,
both on success and in the state left behind by a failing insert. -/
theorem migrate_namesUnique {db : Backend.Db} {legacy : Option (Option (List Device))}
    (h : NamesUnique db) :
    (∀ db', Backend.migrateLegacyConfig db legacy = .ok db' → NamesUnique db') ∧
    (∀ e db', Backend.migrateLegacyConfig db legacy = .error (e, db') → NamesUnique db') := by
  unfold Backend.migrateLegacyConfig
  split
  · constructor
    · intro db' h1
      cases h1
      exact h
    · intro e db' h1
      cases h1
  · match legacy with
    | some (some devs) =>
      constructor
      · intro db' h1
        dsimp only at h1
        cases e : Backend.insertAll db devs with
        | ok db1 =>
          rw [e] at h1
          cases h1
          exact insertAll_namesUnique devs db h _ (Or.inl e)
        | error leftoverDb =>
          rw [e] at h1
          dsimp only at h1
          have hpart : NamesUnique leftoverDb :=
            insertAll_namesUnique devs db h _ (Or.inr e)
          cases e2 : Backend.dbInsert leftoverDb Backend.exampleDevice with
          | ok db2 =>
            rw [e2] at h1
            cases h1
            exact dbInsert_namesUnique hpart e2
          | error msg =>
            rw [e2] at h1
            cases h1
      · intro msg db' h1
        dsimp only at h1
        cases e : Backend.insertAll db devs with
        | ok db1 =>
          rw [e] at h1
          cases h1
        | error leftoverDb =>
          rw [e] at h1
          dsimp only at h1
          have hpart : NamesUnique leftoverDb :=
            insertAll_namesUnique devs db h _ (Or.inr e)
          cases e2 : Backend.dbInsert leftoverDb Backend.exampleDevice with
          | ok db2 =>
            rw [e2] at h1
            cases h1
          | error msg2 =>
            rw [e2] at h1
            cases h1
            exact hpart
    | some none =>
      constructor
      · intro db' h1
        dsimp only at h1
        cases e2 : Backend.dbInsert db Backend.exampleDevice with
        | ok db2 =>
          rw [e2] at h1
          cases h1
          exact dbInsert_namesUnique h e2
        | error msg =>
          rw [e2] at h1
          cases h1
      · intro msg db' h1
        dsimp only at h1
        cases e2 : Backend.dbInsert db Backend.exampleDevice with
        | ok db2 =>
          rw [e2] at h1
          cases h1
        | error msg2 =>
          rw [e2] at h1
          cases h1
          exact h
    | none =>
      constructor
      · intro db' h1
        dsimp only at h1
        cases e2 : Backend.dbInsert db Backend.exampleDevice with
        | ok db2 =>
          rw [e2] at h1
          cases h1
          exact dbInsert_namesUnique h e2
        | error msg =>
          rw [e2] at h1
          cases h1
      · intro msg db' h1
        dsimp only at h1
        cases e2 : Backend.dbInsert db Backend.exampleDevice with
        | ok db2 =>
          rw [e2] at h1
          cases h1
        | error msg2 =>
          rw [e2] at h1
          cases h1
          exact h

/-- Helper: every single SQLite-backed registry operation preserves the
uniqueness invariant. -/
theorem applyOp_namesUnique {db : Backend.Db} (h : NamesUnique db) (op : Backend.RegOp) :
    NamesUnique (Backend.applyOp db op) := by
  cases op with
  | add d =>
    rw [show Backend.applyOp db (Backend.RegOp.add d) =
      (match Backend.addDevice db d with
       | .ok db' => db'
       | .error _ => db) from rfl]
    cases e : Backend.addDevice db d with
    | ok db' => exact addDevice_namesUnique h e
    | error msg => exact h
  | remove name => exact removeDevice_namesUnique h name
  | update name u =>
    rw [show Backend.applyOp db (Backend.RegOp.update name u) =
      (match Backend.updateDevice db name u with
       | .ok (_, db') => db'
       | .error _ => db) from rfl]
    cases e : Backend.updateDevice db name u with
    | ok p =>
      obtain ⟨r, db'⟩ := p
      exact updateDevice_namesUnique h e
    | error msg => exact h
  | migrate legacy =>
    rw [show Backend.applyOp db (Backend.RegOp.migrate legacy) =
      (match Backend.migrateLegacyConfig db legacy with
       | .ok db' => db'
       | .error (_, db') => db') from rfl]
    cases e : Backend.migrateLegacyConfig db legacy with
    | ok db' => exact (migrate_namesUnique h).1 db' e
    | error p =>
      obtain ⟨msg, db'⟩ := p
      exact (migrate_namesUnique h).2 msg db' e

/-- C3 counterexample: the flat-file `updateDevice` applies a rename
with no duplicate check, so an update can leave two records whose names
are equal case-insensitively. -/
theorem flatFile_rename_breaks_uniqueness :
    NamesUnique [Device.mk "x" "00:00:00:00:00:01" none none,
                 Device.mk "y" "00:00:00:00:00:02" none none] ∧
    FlatFile.updateDevice
        [Device.mk "x" "00:00:00:00:00:01" none none,
         Device.mk "y" "00:00:00:00:00:02" none none] "y"
        (DeviceUpdate.mk (some "x") none none none) =
      (true, [Device.mk "x" "00:00:00:00:00:01" none none,
              Device.mk "x" "00:00:00:00:00:02" none none]) ∧
    ¬ NamesUnique [Device.mk "x" "00:00:00:00:00:01" none none,
                   Device.mk "x" "00:00:00:00:00:02" none none] :=
  ⟨by decide, by decide, by decide⟩

/-- C3 (amended): in the SQLite-backed registry every sequence of
operations (add, remove, update, and the first-load bootstrap) preserves
the invariant that at most one record exists per case-insensitive name;
the flat-file registry's `updateDevice`, by contrast, can violate it via
a rename (see the counterexample). -/
theorem backend_operations_preserve_uniqueness (ops : List Backend.RegOp) (db : Backend.Db)
    (h : NamesUnique db) : NamesUnique (ops.foldl Backend.applyOp db) := by
  induction ops generalizing db with
  | nil => exact h
  | cons op rest ih => exact ih _ (applyOp_namesUnique h op)

/-- Witness for `backend_operations_preserve_uniqueness` on a concrete
operation sequence starting from the empty table. -/
theorem backend_operations_preserve_uniqueness_witness :
    NamesUnique ([] : Backend.Db) ∧
    NamesUnique
      (([Backend.RegOp.migrate (some (some [Device.mk "nas" "00:11:22:33:44:55" none none])),
         Backend.RegOp.add (Device.mk "pc" "66:77:88:99:AA:BB" none none),
         Backend.RegOp.update "pc" (DeviceUpdate.mk (some "NAS") none none none),
         Backend.RegOp.remove "nas"] : List Backend.RegOp).foldl Backend.applyOp []) :=
  ⟨by decide, backend_operations_preserve_uniqueness _ [] (by decide)⟩

/-- C6: adding a device whose name is not yet present succeeds in both
registries, and a second add whose name matches the first
case-insensitively throws the duplicate-name error and leaves the stored
collection unchanged. -/
theorem add_duplicate_name_rejected (s : List Device) (A B : Device)
    (hA : FlatFile.getDevice s A.name = none) (hAB : nameKey B.name = nameKey A.name) :
    FlatFile.addDevice s A = .ok (s ++ [A]) ∧
    FlatFile.addDevice (s ++ [A]) B = .error ("Device '" ++ B.name ++ "' already exists") ∧
    FlatFile.applyAdd (FlatFile.applyAdd s A) B = s ++ [A] ∧
    Backend.addDevice s A = .ok (s ++ [A]) ∧
    Backend.addDevice (s ++ [A]) B = .error ("Device '" ++ B.name ++ "' already exists") ∧
    Backend.applyOp (s ++ [A]) (Backend.RegOp.add B) = s ++ [A] := by
  have hfindA : List.find? (rowMatches A.name) s = none := hA
  have hpred : rowMatches B.name = rowMatches A.name := by
    funext d
    simp [rowMatches, hAB]
  have hanyA : s.any (rowMatches A.name) = false := by
    rw [List.any_eq_false]
    intro x hx
    exact List.find?_eq_none.mp hfindA x hx
  have hfindB : List.find? (rowMatches B.name) (s ++ [A]) = some A := by
    rw [List.find?_append, hpred, hfindA]
    simp [List.find?, rowMatches]
  have h1 : FlatFile.addDevice s A = .ok (s ++ [A]) := by
    unfold FlatFile.addDevice FlatFile.getDevice
    rw [hfindA]
  have h2 : FlatFile.addDevice (s ++ [A]) B =
      .error ("Device '" ++ B.name ++ "' already exists") := by
    unfold FlatFile.addDevice FlatFile.getDevice
    rw [hfindB]
  have h4 : Backend.addDevice s A = .ok (s ++ [A]) := by
    unfold Backend.addDevice Backend.dbGetDevice Backend.dbInsert
    rw [hfindA, hanyA]
    simp
  have h5 : Backend.addDevice (s ++ [A]) B =
      .error ("Device '" ++ B.name ++ "' already exists") := by
    unfold Backend.addDevice Backend.dbGetDevice
    rw [hfindB]
  refine ⟨h1, h2, ?_, h4, h5, ?_⟩
  · unfold FlatFile.applyAdd
    rw [h1]
    dsimp only
    rw [h2]
  · rw [show Backend.applyOp (s ++ [A]) (Backend.RegOp.add B) =
      (match Backend.addDevice (s ++ [A]) B with
       | .ok db' => db'
       | .error _ => s ++ [A]) from rfl]
    rw [h5]

/-- Witness for `add_duplicate_name_rejected` with the names `nas` and
`NAS` on the empty registry. -/
theorem add_duplicate_name_rejected_witness :
    FlatFile.getDevice [] "nas" = none ∧
    nameKey "NAS" = nameKey "nas" ∧
    FlatFile.addDevice ([] ++ [Device.mk "nas" "00:11:22:33:44:55" none none])
        (Device.mk "NAS" "66:77:88:99:AA:BB" none none) =
      .error ("Device '" ++ "NAS" ++ "' already exists") ∧
    Backend.applyOp ([] ++ [Device.mk "nas" "00:11:22:33:44:55" none none])
        (Backend.RegOp.add (Device.mk "NAS" "66:77:88:99:AA:BB" none none)) =
      [] ++ [Device.mk "nas" "00:11:22:33:44:55" none none] := by
  have h := add_duplicate_name_rejected []
    (Device.mk "nas" "00:11:22:33:44:55" none none)
    (Device.mk "NAS" "66:77:88:99:AA:BB" none none) (by decide) (by decide)
  exact ⟨by decide, by decide, h.2.1, h.2.2.2.2.2⟩

/-- Helper: the NOCASE comparator is total. -/
theorem charListLe_total : ∀ a b : List Char,
    (Backend.charListLe a b || Backend.charListLe b a) = true := by
  intro a
  induction a with
  | nil =>
    intro b
    simp [Backend.charListLe]
  | cons x xs ih =>
    intro b
    cases b with
    | nil => simp [Backend.charListLe]
    | cons y ys =>
      by_cases hxy : x = y
      · subst hxy
        simpa [Backend.charListLe] using ih ys
      · rcases lt_or_gt_of_ne hxy with hlt | hgt
        · simp [Backend.charListLe, hxy, Ne.symm hxy, hlt]
        · have h1 : ¬x < y := lt_asymm hgt
          simp [Backend.charListLe, hxy, Ne.symm hxy, hgt, h1]

/-- Helper: the NOCASE comparator is transitive. -/
theorem charListLe_trans : ∀ a b c : List Char, Backend.charListLe a b = true →
    Backend.charListLe b c = true → Backend.charListLe a c = true := by
  intro a
  induction a with
  | nil =>
    intro b c h1 h2
    simp [Backend.charListLe]
  | cons x xs ih =>
    intro b c h1 h2
    cases b with
    | nil => simp [Backend.charListLe] at h1
    | cons y ys =>
      cases c with
      | nil => simp [Backend.charListLe] at h2
      | cons z zs =>
        simp only [Backend.charListLe] at h1 h2 ⊢
        by_cases hxy : x = y
        · subst hxy
          rw [if_pos rfl] at h1
          by_cases hxz : x = z
          · subst hxz
            rw [if_pos rfl] at h2 ⊢
            exact ih ys zs h1 h2
          · rw [if_neg hxz] at h2 ⊢
            exact h2
        · rw [if_neg hxy] at h1
          by_cases hyz : y = z
          · subst hyz
            rw [if_neg hxy]
            exact h1
          · rw [if_neg hyz] at h2
            have hxz : x < z := lt_trans (of_decide_eq_true h1) (of_decide_eq_true h2)
            rw [if_neg (ne_of_lt hxz)]
            simpa using hxz

/-- C8 counterexample: the flat-file `getDevices` returns the backing
array in insertion order; after adding `b` and then `A` the returned
list is not sorted by name case-insensitively. -/
theorem flatFile_list_not_sorted :
    FlatFile.addDevice [] (Device.mk "b" "00:00:00:00:00:01" none none) =
      .ok [Device.mk "b" "00:00:00:00:00:01" none none] ∧
    FlatFile.addDevice [Device.mk "b" "00:00:00:00:00:01" none none]
        (Device.mk "A" "00:00:00:00:00:02" none none) =
      .ok [Device.mk "b" "00:00:00:00:00:01" none none,
           Device.mk "A" "00:00:00:00:00:02" none none] ∧
    FlatFile.getDevices
        [Device.mk "b" "00:00:00:00:00:01" none none,
         Device.mk "A" "00:00:00:00:00:02" none none] =
      [Device.mk "b" "00:00:00:00:00:01" none none,
       Device.mk "A" "00:00:00:00:00:02" none none] ∧
    ¬ List.Pairwise (fun a b => Backend.nameLe a b = true)
        (FlatFile.getDevices
          [Device.mk "b" "00:00:00:00:00:01" none none,
           Device.mk "A" "00:00:00:00:00:02" none none]) :=
  ⟨rfl, rfl, rfl, by decide⟩

/-- C8 (amended): the SQLite-backed list query returns all rows — a
permutation of the table — sorted by name, case-insensitive ascending,
and is a pure read of the table; the flat-file `getDevices`, by
contrast, returns insertion order. -/
theorem backend_list_sorted (db : Backend.Db) :
    List.Pairwise (fun a b => Backend.nameLe a b = true) (Backend.getDevices db) ∧
    (Backend.getDevices db).Perm db ∧
    Backend.mgrGetDevices (Backend.DeviceManager.mk (some db)) = .ok (Backend.getDevices db) := by
  refine ⟨?_, List.mergeSort_perm db Backend.nameLe, rfl⟩
  unfold Backend.getDevices
  exact List.sorted_mergeSort
    (fun a b c hab hbc =>
      charListLe_trans (nameKey a.name) (nameKey b.name) (nameKey c.name) hab hbc)
    (fun a b => charListLe_total (nameKey a.name) (nameKey b.name))
    db

/-- Helper: when no name collisions arise, the migration loop inserts
every legacy record in order. -/
theorem insertAll_of_namesUnique :
    ∀ (l : List Device) (db : Backend.Db), NamesUnique (db ++ l) →
      Backend.insertAll db l = .ok (db ++ l) := by
  intro l
  induction l with
  | nil =>
    intro db h
    simp [Backend.insertAll]
  | cons d rest ih =>
    intro db h
    have hnodup : db.any (rowMatches d.name) = false := by
      rw [List.any_eq_false]
      intro x hx
      have hcross := (List.pairwise_append.mp h).2.2 x hx d (by simp)
      simpa [rowMatches] using hcross
    have hins : Backend.dbInsert db d = .ok (db ++ [d]) := by
      unfold Backend.dbInsert
      rw [hnodup]
      simp
    rw [show Backend.insertAll db (d :: rest) =
      (match Backend.dbInsert db d with
       | .ok db1 => Backend.insertAll db1 rest
       | .error _ => .error db) from rfl]
    rw [hins]
    dsimp only
    have hassoc : NamesUnique ((db ++ [d]) ++ rest) := by
      simpa [List.append_assoc] using h
    rw [ih (db ++ [d]) hassoc]
    simp [List.append_assoc]

/-- C9 counterexample: with an empty store and a malformed legacy file
the code logs a warning and then falls through to inserting the example
record, while the claim's seeding rule (migration skipped, example only
when no legacy file exists) leaves the store empty. -/
theorem migrate_malformed_inserts_example :
    Backend.migrateLegacyConfig [] (some none) = .ok [Backend.exampleDevice] ∧
    claimSeedResult [] (some none) = [] ∧
    ([Backend.exampleDevice] : Backend.Db) ≠ [] :=
  ⟨rfl, rfl, by decide⟩

/-- C9 (amended): on a non-empty store the bootstrap changes nothing and
re-imports nothing; on an empty store a well-formed legacy list with
pairwise case-insensitively distinct names is inserted as-is and nothing
else, while a malformed legacy file — after a logged warning — and a
missing legacy file both seed the one example record; a repeated
`loadDevices` call on an initialized manager is a no-op. -/
theorem migrate_seeding (db stored : Backend.Db) (legacy : Option (Option (List Device)))
    (devs : List Device) (hdb : db ≠ []) (hstored : stored ≠ []) (hdevs : NamesUnique devs) :
    Backend.migrateLegacyConfig db legacy = .ok db ∧
    Backend.migrateLegacyConfig [] (some (some devs)) = .ok devs ∧
    Backend.migrateLegacyConfig [] (some none) = .ok [Backend.exampleDevice] ∧
    Backend.migrateLegacyConfig [] none = .ok [Backend.exampleDevice] ∧
    Backend.loadDevices (Backend.DeviceManager.mk (some db)) stored legacy =
      .ok (Backend.DeviceManager.mk (some db)) ∧
    Backend.loadDevices (Backend.DeviceManager.mk none) stored legacy =
      .ok (Backend.DeviceManager.mk (some stored)) := by
  have hmig : ∀ d : Backend.Db, d ≠ [] → ∀ lg, Backend.migrateLegacyConfig d lg = .ok d := by
    intro d hd lg
    unfold Backend.migrateLegacyConfig
    rw [if_pos (List.length_pos.mpr hd)]
  have h2 : Backend.migrateLegacyConfig [] (some (some devs)) = .ok devs := by
    unfold Backend.migrateLegacyConfig
    rw [if_neg (by simp)]
    dsimp only
    rw [insertAll_of_namesUnique devs [] (by simpa using hdevs)]
    simp
  refine ⟨hmig db hdb legacy, h2, rfl, rfl, rfl, ?_⟩
  unfold Backend.loadDevices
  dsimp only
  rw [hmig stored hstored legacy]

/-- Witness for `migrate_seeding` on the spec's `nas` scenario. -/
theorem migrate_seeding_witness :
    ([Device.mk "nas" "00:11:22:33:44:55" none none] : Backend.Db) ≠ [] ∧
    NamesUnique [Device.mk "nas" "00:11:22:33:44:55" none none] ∧
    Backend.migrateLegacyConfig []
        (some (some [Device.mk "nas" "00:11:22:33:44:55" none none])) =
      .ok [Device.mk "nas" "00:11:22:33:44:55" none none] ∧
    Backend.loadDevices (Backend.DeviceManager.mk none)
        [Device.mk "nas" "00:11:22:33:44:55" none none]
        (some (some [Device.mk "nas" "00:11:22:33:44:55" none none])) =
      .ok (Backend.DeviceManager.mk (some [Device.mk "nas" "00:11:22:33:44:55" none none])) := by
  have t := migrate_seeding
    [Device.mk "nas" "00:11:22:33:44:55" none none]
    [Device.mk "nas" "00:11:22:33:44:55" none none]
    (some (some [Device.mk "nas" "00:11:22:33:44:55" none none]))
    [Device.mk "nas" "00:11:22:33:44:55" none none]
    (by decide) (by decide) (by decide)
  exact ⟨by decide, by decide, t.2.1, t.2.2.2.2.2⟩

/-- Helper: the only error `updateFields` can produce is the SQLite
unique-constraint error (the duplicate-name check happens before it). -/
theorem updateFields_error_constraint {db : Backend.Db} {name : String} {u : DeviceUpdate}
    {e : String} (h : Backend.updateFields db name u = .error e) :
    e = Backend.constraintError := by
  unfold Backend.updateFields at h
  split at h
  · split at h
    · cases h
    · rename_i heq
      cases h
      unfold Backend.dbUpdate at heq
      split at heq
      · cases heq
      · cases heq
        rfl
  · cases h

/-- Helper: the duplicate-name message differs from the
unique-constraint message, whatever name it embeds. -/
theorem dupMsg_ne_constraint (n : String) :
    ("Device '" ++ n ++ "' already exists") ≠ Backend.constraintError := by
  intro h
  have hds : some 'D' = some 'U' := congrArg (fun s : String => s.data.head?) h
  simp at hds

/-- C7 counterexample: renaming the only record to a case variant of its
own name is treated as a collision: the update throws the duplicate-name
error although the new name matches only the record being renamed. -/
theorem update_case_rename_throws :
    Backend.dbGetDevice [Device.mk "foo" "00:11:22:33:44:55" none none] "FOO" =
      some (Device.mk "foo" "00:11:22:33:44:55" none none) ∧
    Backend.updateDevice [Device.mk "foo" "00:11:22:33:44:55" none none] "foo"
        (DeviceUpdate.mk (some "FOO") none none none) =
      .error "Device 'FOO' already exists" :=
  ⟨rfl, rfl⟩

/-- C7 (amended): `updateDevice` returns `false` without erroring when
no record matches `name`; it throws the duplicate-name error exactly
when a record matches `name` and the update carries a truthy new name
that differs from `name` by exact string comparison and matches some
record case-insensitively — including the target record itself when a
rename only changes case; and the patch replaces exactly the fields
present on the update object, leaving absent fields untouched. -/
theorem backend_update_semantics (db : Backend.Db) (name : String) (u : DeviceUpdate) :
    (Backend.dbGetDevice db name = none → Backend.updateDevice db name u = .ok (false, db)) ∧
    ((∃ n, Backend.updateDevice db name u =
        .error ("Device '" ++ n ++ "' already exists")) ↔
      ((Backend.dbGetDevice db name).isSome ∧
       ∃ n, u.name = some n ∧ n ≠ "" ∧ n ≠ name ∧ (Backend.dbGetDevice db n).isSome)) ∧
    (∀ d : Device,
      (u.name = none → (applyUpdate u d).name = d.name) ∧
      (u.mac = none → (applyUpdate u d).mac = d.mac) ∧
      (u.ip = none → (applyUpdate u d).ip = d.ip) ∧
      (u.broadcast = none → (applyUpdate u d).broadcast = d.broadcast) ∧
      (∀ v, u.name = some v → (applyUpdate u d).name = v) ∧
      (∀ v, u.mac = some v → (applyUpdate u d).mac = v) ∧
      (∀ v, u.ip = some v → (applyUpdate u d).ip = v) ∧
      (∀ v, u.broadcast = some v → (applyUpdate u d).broadcast = v)) := by
  refine ⟨?_, ⟨?_, ?_⟩, ?_⟩
  · intro h
    unfold Backend.updateDevice
    rw [h]
  · rintro ⟨n, hres⟩
    unfold Backend.updateDevice at hres
    cases e1 : Backend.dbGetDevice db name with
    | none =>
      rw [e1] at hres
      cases hres
    | some tgt =>
      rw [e1] at hres
      dsimp only at hres
      refine ⟨rfl, ?_⟩
      cases e2 : u.name with
      | none =>
        rw [e2] at hres
        dsimp only at hres
        exact absurd (updateFields_error_constraint hres) (dupMsg_ne_constraint n)
      | some n' =>
        rw [e2] at hres
        dsimp only at hres
        by_cases hne : n' = ""
        · rw [if_pos hne] at hres
          exact absurd (updateFields_error_constraint hres) (dupMsg_ne_constraint n)
        · rw [if_neg hne] at hres
          by_cases hnn : n' = name
          · rw [if_pos hnn] at hres
            exact absurd (updateFields_error_constraint hres) (dupMsg_ne_constraint n)
          · rw [if_neg hnn] at hres
            cases e3 : Backend.dbGetDevice db n' with
            | none =>
              rw [e3] at hres
              dsimp only at hres
              exact absurd (updateFields_error_constraint hres) (dupMsg_ne_constraint n)
            | some d' =>
              exact ⟨n', rfl, hne, hnn, by rw [e3]; rfl⟩
  · rintro ⟨htgt, n, hun, hne, hnname, hcol⟩
    obtain ⟨tgt, htgt'⟩ := Option.isSome_iff_exists.mp htgt
    obtain ⟨d', hd'⟩ := Option.isSome_iff_exists.mp hcol
    have hres : Backend.updateDevice db name u =
        .error ("Device '" ++ n ++ "' already exists") := by
      unfold Backend.updateDevice
      rw [htgt']
      dsimp only
      rw [hun]
      dsimp only
      rw [if_neg hne, if_neg hnname, hd']
    exact ⟨n, hres⟩
  · intro d
    refine ⟨?_, ?_, ?_, ?_, ?_, ?_, ?_, ?_⟩ <;>
      first
        | (intro h; simp [applyUpdate, h])
        | (intro v h; simp [applyUpdate, h])

/-- Witness for `backend_update_semantics`: an update of a missing name
returns `false`, and a rename of `bar` to `Foo` (colliding with the
record `foo`) throws the duplicate-name error. -/
theorem backend_update_semantics_witness :
    Backend.dbGetDevice [Device.mk "foo" "00:11:22:33:44:55" none none] "bar" = none ∧
    Backend.updateDevice [Device.mk "foo" "00:11:22:33:44:55" none none] "bar"
        (DeviceUpdate.mk none (some "66:77:88:99:AA:BB") none none) =
      .ok (false, [Device.mk "foo" "00:11:22:33:44:55" none none]) ∧
    (∃ n, Backend.updateDevice
        [Device.mk "foo" "00:11:22:33:44:55" none none,
         Device.mk "bar" "0A:0B:0C:0D:0E:0F" none none] "bar"
        (DeviceUpdate.mk (some "Foo") none none none) =
      .error ("Device '" ++ n ++ "' already exists")) := by
  refine ⟨by decide, ?_, ?_⟩
  · exact (backend_update_semantics [Device.mk "foo" "00:11:22:33:44:55" none none] "bar"
      (DeviceUpdate.mk none (some "66:77:88:99:AA:BB") none none)).1 (by decide)
  · exact (backend_update_semantics
      [Device.mk "foo" "00:11:22:33:44:55" none none,
       Device.mk "bar" "0A:0B:0C:0D:0E:0F" none none] "bar"
      (DeviceUpdate.mk (some "Foo") none none none)).2.1.mpr
      ⟨by decide, "Foo", rfl, by decide, by decide, by decide⟩
